import Mathlib

/-!
Verification of miniflux's icon finder (`internal/reader/icon/finder.go`).

Go strings are embedded as `List Char` (the inputs of interest are byte
strings; characters model bytes), binary blobs as `List Nat` (each element a
byte value). Network traffic is externalized: the HTTP responses a call would
receive are explicit oracle inputs, mirroring the treatment of the HTTP client
as a black-box collaborator. External library leaves that the repository code
calls (`encoding/base64`, `net/url.QueryUnescape`, `strings.TrimSpace`) are
embedded with their documented Go semantics; repository helpers that are not
part of the analyzed file (`urllib`, the response's server-failure predicate,
the digest) are modelled from the spec, as marked in their doc comments.
-/

deriving instance DecidableEq for Except

/-- Characters of a string literal, the `List Char` view of a Go string. -/
def chars (x : String) : List Char := x.data

/-- Whitespace predicate of Go's `unicode.IsSpace` (the code points trimmed by
`strings.TrimSpace`). -/
def goIsSpace (c : Char) : Bool :=
  c.toNat ∈ [0x9, 0xA, 0xB, 0xC, 0xD, 0x20, 0x85, 0xA0, 0x1680,
    0x2000, 0x2001, 0x2002, 0x2003, 0x2004, 0x2005, 0x2006, 0x2007,
    0x2008, 0x2009, 0x200A, 0x2028, 0x2029, 0x202F, 0x205F, 0x3000]

/-- Go's `strings.TrimSpace`: drop leading and trailing whitespace. -/
def trimSpace (l : List Char) : List Char :=
  ((l.dropWhile goIsSpace).reverse.dropWhile goIsSpace).reverse

/-- Go's `strings.Index` for a single character: index of the first
occurrence, `none` standing for Go's `-1`. -/
def strIndex (ch : Char) : List Char → Option Nat
  | [] => none
  | c :: rest => if c = ch then some 0 else (strIndex ch rest).map (· + 1)

/-! ## HTML icon scanner (`findIconURLFromHTMLDocument`) -/

/-- A `<link>` element of the parsed HTML document: its `rel` attribute value
and its optional `href` attribute. Elements that are not `<link>` or carry no
`rel` never match any of the scanner's selectors, so a document is embedded as
the list of its link elements in document order. -/
structure LinkElement where
  rel : List Char
  href : Option (List Char)
deriving DecidableEq, Repr

/-- The `rel` values of the scanner's selector queries, in priority order:
`link[rel='shortcut icon']`, `link[rel='Shortcut Icon']`,
`link[rel='icon shortcut']`, `link[rel='icon']` (cascadia attribute-value
matching is exact and case-sensitive). -/
def iconQueries : List (List Char) :=
  [chars "shortcut icon", chars "Shortcut Icon", chars "icon shortcut", chars "icon"]

/-- One `doc.Find(query).Each(...)` pass: fold over the document in order;
every match that has an `href` attribute overwrites the accumulator with the
trimmed href, a match without `href` leaves it unchanged. -/
def scanPass (relValue : List Char) (doc : List LinkElement) (acc : List Char) : List Char :=
  doc.foldl
    (fun a e =>
      if e.rel = relValue then
        match e.href with
        | some h => trimSpace h
        | none => a
      else a)
    acc

/-- The scanner's loop over the selector queries, threading the single
`iconURL` variable: after each pass, stop if it is non-empty. -/
def scanQueries : List (List Char) → List LinkElement → List Char → List Char
  | [], _, acc => acc
  | q :: qs, doc, acc =>
    let a := scanPass q doc acc
    if a ≠ [] then a else scanQueries qs doc a

/-- `findIconURLFromHTMLDocument` on an already-parsed document (goquery's
parse failure is modelled at the fetch step). -/
def findIconURLFromHTMLDocument (doc : List LinkElement) : List Char :=
  scanQueries iconQueries doc []

/-! ## Base64 (Go `encoding/base64`, `StdEncoding`) -/

/-- The standard base64 alphabet. -/
def b64Alphabet : List Char :=
  chars "ABCDEFGHIJKLMNOPQRSTUVWXYZabcdefghijklmnopqrstuvwxyz0123456789+/"

/-- Character of the alphabet at a 6-bit index. -/
def b64Char (i : Nat) : Char := b64Alphabet.getD i 'A'

/-- Index of a character in the base64 alphabet (`none` for non-alphabet
characters, including `=`). -/
def b64Index (c : Char) : Option Nat := strIndex c b64Alphabet

/-- Decode a newline-free base64 string quantum by quantum, with Go
`StdEncoding`'s non-strict semantics: length must be a multiple of four,
padding `=` is allowed only at the end (`xx==` or `xxx=`), and non-zero
trailing bits in a final partial quantum are accepted and masked off. -/
def decodeQuanta : List Char → Option (List Nat)
  | [] => some []
  | c0 :: c1 :: c2 :: c3 :: rest =>
    match b64Index c0, b64Index c1 with
    | some a, some b =>
      if c2 = '=' then
        if c3 = '=' ∧ rest = [] then some [a * 4 + b / 16] else none
      else
        match b64Index c2 with
        | some c =>
          if c3 = '=' then
            if rest = [] then some [a * 4 + b / 16, b % 16 * 16 + c / 4] else none
          else
            match b64Index c3 with
            | some d =>
              match decodeQuanta rest with
              | some t => some ((a * 4 + b / 16) :: (b % 16 * 16 + c / 4) :: (c % 4 * 64 + d) :: t)
              | none => none
            | none => none
        | none => none
    | _, _ => none
  | _ => none

/-- The characters Go's base64 decoder does not skip: everything except
carriage return and newline. -/
def isNotNewline (c : Char) : Bool := !(c == '\n' || c == '\r')

/-- Go's `base64.StdEncoding.DecodeString`: carriage returns and newlines are
ignored wherever they occur, then the string is decoded in four-character
quanta. -/
def base64Decode (l : List Char) : Option (List Nat) :=
  decodeQuanta (l.filter isNotNewline)

/-- Go's `base64.StdEncoding.EncodeToString` on a byte sequence. -/
def base64Encode : List Nat → List Char
  | [] => []
  | [b0] => [b64Char (b0 / 4), b64Char (b0 % 4 * 16), '=', '=']
  | [b0, b1] =>
    [b64Char (b0 / 4), b64Char (b0 % 4 * 16 + b1 / 16), b64Char (b1 % 16 * 4), '=']
  | b0 :: b1 :: b2 :: rest =>
    b64Char (b0 / 4) :: b64Char (b0 % 4 * 16 + b1 / 16) ::
      b64Char (b1 % 16 * 4 + b2 / 64) :: b64Char (b2 % 64) :: base64Encode rest

/-! ## Percent decoding (Go `net/url.QueryUnescape`) -/

/-- Value of a hexadecimal digit, both cases accepted. -/
def hexDigitVal (c : Char) : Option Nat :=
  if '0' ≤ c ∧ c ≤ '9' then some (c.toNat - '0'.toNat)
  else if 'a' ≤ c ∧ c ≤ 'f' then some (c.toNat - 'a'.toNat + 10)
  else if 'A' ≤ c ∧ c ≤ 'F' then some (c.toNat - 'A'.toNat + 10)
  else none

/-- Go's `url.QueryUnescape`: `%XY` with two hex digits decodes to one byte,
`+` decodes to a space, every other character passes through; a `%` not
followed by two hex digits is an error. -/
def queryUnescape : List Char → Option (List Char)
  | [] => some []
  | '%' :: a :: b :: rest =>
    match hexDigitVal a, hexDigitVal b with
    | some x, some y => (queryUnescape rest).map (fun t => Char.ofNat (x * 16 + y) :: t)
    | _, _ => none
  | ['%'] => none
  | ['%', _] => none
  | '+' :: rest => (queryUnescape rest).map (fun t => ' ' :: t)
  | c :: rest => (queryUnescape rest).map (fun t => c :: t)

/-! ## Data model and errors -/

/-- Modelled from the spec: `crypto.HashFromBytes` is the external digest
collaborator (`digest(bytes) -> fixed string`); the only property the icon
finder relies on is that the hash is a function of the content bytes, so it
is embedded as an opaque-but-computable function of them. -/
def hashFromBytes (bytes : List Nat) : List Nat := bytes

/-- `model.Icon`: content hash, MIME type and binary content. -/
structure Icon where
  hash : List Nat
  mimeType : List Char
  content : List Nat
deriving DecidableEq, Repr

/-- The error taxonomy of the icon finder, one constructor per `return nil,
fmt.Errorf(...)` site, each carrying the context that the Go error message
interpolates. -/
inductive IconError where
  /-- "invalid data URL (missing data:)" -/
  | missingDataScheme (value : List Char)
  /-- "invalid data URL (no comma)": carries the value after the `data:`
  scheme was stripped, as the Go message does. -/
  | noComma (value : List Char)
  /-- "invalid media type" -/
  | invalidMediaType (mediaType : List Char)
  /-- "invalid data" (base64 decoding failed) -/
  | invalidBase64 (value : List Char)
  /-- "unable to decode data URL" (percent-unescape failed) -/
  | invalidPercentEncoding (value : List Char)
  /-- "unsupported data URL encoding" -/
  | unsupportedEncoding (value : List Char)
  /-- "empty data URL" -/
  | emptyData (value : List Char)
  /-- "unable to join base URL and path" -/
  | joinURLError
  /-- "unable to convert icon URL to absolute URL" -/
  | absoluteURLError
  /-- "unable to download website index page" (transport) -/
  | pageTransport
  /-- "unable to download website index page: status=%d" -/
  | pageServerFailure (status : Nat)
  /-- "unable to read document" -/
  | pageParse
  /-- "unable to download iconURL" (transport) -/
  | iconTransport
  /-- "unable to download icon: status=%d" -/
  | iconServerFailure (status : Nat)
  /-- "unable to read downloaded icon" -/
  | iconRead
  /-- "downloaded icon is empty, iconURL=%s" -/
  | iconEmpty (iconURL : List Char)
deriving DecidableEq, Repr

/-! ## Data-URL parsing (`parseImageDataURL`) -/

/-- The split of the segment between `data:` and the comma into media type and
encoding token: `semicolon := strings.Index(seg, ";")`; only when `semicolon >
0` does the code split there — a missing semicolon or one at index 0 leaves
the whole segment as the media type and the encoding empty. -/
def splitMediaTypeEncoding (seg : List Char) : List Char × List Char :=
  match strIndex ';' seg with
  | some semi => if 0 < semi then (seg.take semi, seg.drop (semi + 1)) else (seg, [])
  | none => (seg, [])

/-- The `switch encoding` statement of `parseImageDataURL`: `base64` decodes
the payload with standard base64, the empty token percent-unescapes it (the
decoded text's bytes form the blob), anything else is unsupported. `v` is the
value the error messages interpolate. -/
def decodeBlob (encoding data v : List Char) : Except IconError (List Nat) :=
  if encoding = chars "base64" then
    match base64Decode data with
    | some blob => .ok blob
    | none => .error (.invalidBase64 v)
  else if encoding = [] then
    match queryUnescape data with
    | some decoded => .ok (decoded.map Char.toNat)
    | none => .error (.invalidPercentEncoding v)
  else .error (.unsupportedEncoding v)

/-- Body of `parseImageDataURL` after `value = value[5:]` stripped the
`data:` scheme: locate the first comma, split media type and encoding, check
the media type, decode per the encoding token, and reject an empty payload. -/
def parseDataURLBody (v : List Char) : Except IconError Icon :=
  match strIndex ',' v with
  | none => .error (.noComma v)
  | some comma =>
    if ¬ (chars "image/").isPrefixOf (splitMediaTypeEncoding (v.take comma)).1 then
      .error (.invalidMediaType (splitMediaTypeEncoding (v.take comma)).1)
    else
      match decodeBlob (splitMediaTypeEncoding (v.take comma)).2 (v.drop (comma + 1)) v with
      | .error e => .error e
      | .ok blob =>
        if blob = [] then .error (.emptyData v)
        else .ok ⟨hashFromBytes blob, (splitMediaTypeEncoding (v.take comma)).1, blob⟩

/-- `parseImageDataURL`: reject a value without the `data:` scheme, then
parse the rest. -/
def parseImageDataURL (value : List Char) : Except IconError Icon :=
  if (chars "data:").isPrefixOf value then parseDataURLBody (value.drop 5)
  else .error (.missingDataScheme value)

/-! ## Download (`downloadIcon`) -/

/-- Modelled from the spec: the HTTP client's server-failure predicate holds
for 5xx-class (≥ 500) status codes. -/
def hasServerFailure (status : Nat) : Bool := 500 ≤ status

/-- The observable part of the HTTP response to the icon GET: status code,
declared content type, and the body read, which itself may fail
(`io.ReadAll`'s error is an `Except.error` body). -/
structure IconResponse where
  statusCode : Nat
  contentType : List Char
  body : Except Unit (List Nat)
deriving Repr

/-- `downloadIcon`, the response to its single GET supplied as an oracle:
transport error, then server-failure status, then body read error, then empty
body are rejected in that order; otherwise the icon is built from the body
bytes and the response's content type. -/
def downloadIcon (iconURL : List Char) (resp : Except Unit IconResponse) :
    Except IconError Icon :=
  match resp with
  | .error _ => .error .iconTransport
  | .ok r =>
    if hasServerFailure r.statusCode then .error (.iconServerFailure r.statusCode)
    else
      match r.body with
      | .error _ => .error .iconRead
      | .ok body =>
        if body = [] then .error (.iconEmpty iconURL)
        else .ok ⟨hashFromBytes body, r.contentType, body⟩

/-! ## URL resolution (`generateIconURL`) -/

/-- Modelled from the spec: `urllib.RootURL` extracts the site root (scheme
plus host) of a URL — everything up to the first slash after the `://`
separator. -/
def rootURL (u : List Char) : List Char :=
  match strIndex ':' u with
  | none => u
  | some i =>
    match strIndex '/' (u.drop (i + 3)) with
    | none => u
    | some j => u.take (i + 3 + j)

/-- Modelled from the spec: `urllib.JoinBaseURLAndPath` joins a base URL and
a path, failing on a malformed (here: empty) base. -/
def joinBaseURLAndPath (base path : List Char) : Except Unit (List Char) :=
  if base = [] then .error ()
  else if base.getLast? = some '/' then .ok (base ++ path)
  else .ok (base ++ '/' :: path)

/-- Modelled from the spec: `urllib.AbsoluteURL` resolves a candidate against
a base URL — an already-absolute candidate is kept, a protocol-relative one
takes the base's scheme, a root-relative one is joined to the base's root,
and a relative one is resolved against the base's directory. -/
def absoluteURL (base input : List Char) : Except Unit (List Char) :=
  if (chars "http://").isPrefixOf input ∨ (chars "https://").isPrefixOf input then .ok input
  else if (chars "//").isPrefixOf input then
    match strIndex ':' base with
    | none => .error ()
    | some i => .ok (base.take i ++ ':' :: input)
  else if (chars "/").isPrefixOf input then .ok (rootURL base ++ input)
  else
    match strIndex '/' base.reverse with
    | none => .error ()
    | some k => .ok (base.take (base.length - k) ++ input)

/-- `generateIconURL`: trim the candidate; an empty result falls back to the
site root joined with `favicon.ico`, a non-empty one is made absolute against
the site URL; either helper's failure is wrapped in the corresponding
error. -/
def generateIconURL (websiteURL feedIconURL : List Char) : Except IconError (List Char) :=
  let trimmed := trimSpace feedIconURL
  if trimmed = [] then
    match joinBaseURLAndPath (rootURL websiteURL) (chars "favicon.ico") with
    | .ok u => .ok u
    | .error _ => .error .joinURLError
  else
    match absoluteURL websiteURL trimmed with
    | .ok u => .ok u
    | .error _ => .error .absoluteURLError

/-! ## Orchestration (`FindIcon`) -/

/-- The observable part of the HTTP response to the index-page GET: status
code and the parse result of the body (goquery's parse failure is an
`Except.error` document). -/
structure PageResponse where
  statusCode : Nat
  doc : Except Unit (List LinkElement)
deriving Repr

/-- `fetchHTMLDocumentAndFindIconURL`, the response to the index-page GET
supplied as an oracle: transport and server-failure errors abort, an
unparseable document aborts, otherwise the scanner runs on the document. -/
def fetchHTMLDocumentAndFindIconURL (page : Except Unit PageResponse) :
    Except IconError (List Char) :=
  match page with
  | .error _ => .error .pageTransport
  | .ok r =>
    if hasServerFailure r.statusCode then .error (.pageServerFailure r.statusCode)
    else
      match r.doc with
      | .error _ => .error .pageParse
      | .ok doc => .ok (findIconURLFromHTMLDocument doc)

/-- `FindIcon`: scan the page when no feed icon URL is supplied; a `data:`
candidate is decoded directly; otherwise the candidate is resolved and
downloaded. `page` is the index-page response oracle and `net` maps the
resolved icon URL to its response. -/
def FindIcon (websiteURL feedIconURL : List Char) (page : Except Unit PageResponse)
    (net : List Char → Except Unit IconResponse) : Except IconError Icon :=
  match (if feedIconURL = [] then fetchHTMLDocumentAndFindIconURL page
         else .ok feedIconURL) with
  | .error e => .error e
  | .ok candidate =>
    if (chars "data:").isPrefixOf candidate then parseImageDataURL candidate
    else
      match generateIconURL websiteURL candidate with
      | .error e => .error e
      | .ok iconURL => downloadIcon iconURL (net iconURL)

/-! ## Spec-side definitions

These follow the spec's words, to be compared with the definitions embedded
from the source. -/

/-- The scanner pass as the spec words it: iterate all matches of one
selector in document order and take the trimmed `href` of the last matching
element, later matches overwriting earlier ones, starting from nothing. -/
def specLastHref (q : List Char) (doc : List LinkElement) : List Char :=
  doc.foldl
    (fun a e => if e.rel = q ∧ e.href.isSome then trimSpace (e.href.getD []) else a) []

/-- The scanner as the spec words it: try each selector in priority order and
return the first selector's non-empty pass result, the empty string when no
selector yields one. -/
def specScan : List (List Char) → List LinkElement → List Char
  | [], _ => []
  | q :: qs, doc => if specLastHref q doc ≠ [] then specLastHref q doc else specScan qs doc

/-- The media-type/encoding split as claimed: if the segment contains a
semicolon, the media type is the substring before it and the encoding token
the substring between it and the comma; with no semicolon the whole segment
is the media type and the encoding is empty. -/
def specSplitMediaTypeEncoding (seg : List Char) : List Char × List Char :=
  match strIndex ';' seg with
  | some semi => (seg.take semi, seg.drop (semi + 1))
  | none => (seg, [])

/-! ## Helper lemmas -/

theorem strIndex_of_not_mem (c : Char) (l : List Char) (h : c ∉ l) :
    strIndex c l = none := by
  induction l with
  | nil => rfl
  | cons a l ih =>
    simp only [List.mem_cons, not_or] at h
    simp only [strIndex]
    rw [if_neg (fun e => h.1 e.symm), ih h.2]
    rfl

theorem strIndex_append_cons (c : Char) (xs ys : List Char) (h : c ∉ xs) :
    strIndex c (xs ++ c :: ys) = some xs.length := by
  induction xs with
  | nil => simp [strIndex]
  | cons a l ih =>
    simp only [List.mem_cons, not_or] at h
    simp only [List.cons_append, strIndex, List.append_eq]
    rw [if_neg (fun e => h.1 e.symm), ih h.2]
    rfl

theorem take_len_append_cons (xs : List Char) (y : Char) (ys : List Char) :
    (xs ++ y :: ys).take xs.length = xs := by
  induction xs with
  | nil => rfl
  | cons a l ih => simp [ih]

theorem drop_len_append_cons (xs : List Char) (y : Char) (ys : List Char) :
    (xs ++ y :: ys).drop (xs.length + 1) = ys := by
  induction xs with
  | nil => rfl
  | cons a l ih => simp [ih]

theorem parseImageDataURL_data_append (rest : List Char) :
    parseImageDataURL (chars "data:" ++ rest) = parseDataURLBody rest := by
  have h5 : chars "data:" ++ rest = 'd' :: 'a' :: 't' :: 'a' :: ':' :: rest := rfl
  rw [parseImageDataURL, h5]
  have hpre : (chars "data:").isPrefixOf ('d' :: 'a' :: 't' :: 'a' :: ':' :: rest) = true := by
    simp [chars, List.isPrefixOf]
  rw [if_pos hpre]
  rfl

theorem parseDataURLBody_append (seg data : List Char) (h : ',' ∉ seg) :
    parseDataURLBody (seg ++ ',' :: data) =
      (if ¬ (chars "image/").isPrefixOf (splitMediaTypeEncoding seg).1 then
        .error (.invalidMediaType (splitMediaTypeEncoding seg).1)
      else
        match decodeBlob (splitMediaTypeEncoding seg).2 data (seg ++ ',' :: data) with
        | .error e => .error e
        | .ok blob =>
          if blob = [] then .error (.emptyData (seg ++ ',' :: data))
          else .ok ⟨hashFromBytes blob, (splitMediaTypeEncoding seg).1, blob⟩) := by
  rw [parseDataURLBody]
  simp only [strIndex_append_cons ',' seg data h, take_len_append_cons, drop_len_append_cons]

theorem b64Index_b64Char : ∀ i, i < 64 → b64Index (b64Char i) = some i := by decide

theorem b64Char_ne_pad : ∀ i, i < 64 → b64Char i ≠ '=' := by decide

theorem isNotNewline_b64Char : ∀ i, i < 64 → isNotNewline (b64Char i) = true := by decide

theorem isNotNewline_pad : isNotNewline '=' = true := by decide

theorem base64_decode_encode : ∀ p : List Nat, (∀ b ∈ p, b < 256) →
    base64Decode (base64Encode p) = some p
  | [], _ => rfl
  | [b0], h => by
    have hb0 : b0 < 256 := h b0 (by simp)
    have h0 : b0 / 4 < 64 := by omega
    have h1 : b0 % 4 * 16 < 64 := by omega
    rw [base64Encode, base64Decode]
    simp [List.filter_cons, isNotNewline_b64Char _ h0, isNotNewline_b64Char _ h1,
      isNotNewline_pad, decodeQuanta, b64Index_b64Char _ h0, b64Index_b64Char _ h1]
    omega
  | [b0, b1], h => by
    have hb0 : b0 < 256 := h b0 (by simp)
    have hb1 : b1 < 256 := h b1 (by simp)
    have h0 : b0 / 4 < 64 := by omega
    have h1 : b0 % 4 * 16 + b1 / 16 < 64 := by omega
    have h2 : b1 % 16 * 4 < 64 := by omega
    rw [base64Encode, base64Decode]
    simp [List.filter_cons, isNotNewline_b64Char _ h0, isNotNewline_b64Char _ h1,
      isNotNewline_b64Char _ h2, isNotNewline_pad, decodeQuanta,
      b64Index_b64Char _ h0, b64Index_b64Char _ h1, b64Index_b64Char _ h2,
      b64Char_ne_pad _ h2]
    constructor
    · omega
    · omega
  | b0 :: b1 :: b2 :: rest, h => by
    have hb0 : b0 < 256 := h b0 (by simp)
    have hb1 : b1 < 256 := h b1 (by simp)
    have hb2 : b2 < 256 := h b2 (by simp)
    have hrest : ∀ b ∈ rest, b < 256 := fun b hb => h b (by simp [hb])
    have ih := base64_decode_encode rest hrest
    have h0 : b0 / 4 < 64 := by omega
    have h1 : b0 % 4 * 16 + b1 / 16 < 64 := by omega
    have h2 : b1 % 16 * 4 + b2 / 64 < 64 := by omega
    have h3 : b2 % 64 < 64 := by omega
    rw [base64Decode] at ih
    rw [base64Encode, base64Decode]
    simp only [List.filter_cons, isNotNewline_b64Char _ h0, isNotNewline_b64Char _ h1,
      isNotNewline_b64Char _ h2, isNotNewline_b64Char _ h3, if_true]
    simp [decodeQuanta, b64Index_b64Char _ h0, b64Index_b64Char _ h1,
      b64Index_b64Char _ h2, b64Index_b64Char _ h3, b64Char_ne_pad _ h2,
      b64Char_ne_pad _ h3, ih]
    refine ⟨by omega, by omega, by omega⟩

theorem scanPass_eq_specfold (q : List Char) (doc : List LinkElement) (acc : List Char) :
    scanPass q doc acc =
      doc.foldl
        (fun a e => if e.rel = q ∧ e.href.isSome then trimSpace (e.href.getD []) else a) acc := by
  induction doc generalizing acc with
  | nil => rfl
  | cons e doc ih =>
    simp only [scanPass, List.foldl_cons] at ih ⊢
    rw [ih]
    congr 1
    cases hh : e.href <;> by_cases hr : e.rel = q <;> simp [hh, hr]

theorem specLastHref_eq_scanPass (q : List Char) (doc : List LinkElement) :
    specLastHref q doc = scanPass q doc [] :=
  (scanPass_eq_specfold q doc []).symm

theorem scanQueries_eq_specScan (qs : List (List Char)) (doc : List LinkElement) :
    scanQueries qs doc [] = specScan qs doc := by
  induction qs with
  | nil => rfl
  | cons q qs ih =>
    simp only [scanQueries, specScan, specLastHref_eq_scanPass]
    by_cases hq : scanPass q doc [] = []
    · simp [hq, ih]
    · simp [hq]

/-- C2: the scanner tries the four `link[rel=...]` selectors in fixed priority
order; within one selector all matches are visited in document order with
later matches overwriting earlier ones, and scanning stops at the first
selector whose pass ends non-empty — it is extensionally the spec's
first-selector-with-non-empty-last-href function; in particular a document
with both `rel="icon" href="/a.png"` and `rel="shortcut icon" href="/b.png"`
yields `/b.png` in either document order. -/
theorem c2_scanner_selector_priority :
    (∀ doc : List LinkElement, findIconURLFromHTMLDocument doc = specScan iconQueries doc) ∧
    findIconURLFromHTMLDocument
      [⟨chars "icon", some (chars "/a.png")⟩,
       ⟨chars "shortcut icon", some (chars "/b.png")⟩] = chars "/b.png" ∧
    findIconURLFromHTMLDocument
      [⟨chars "shortcut icon", some (chars "/b.png")⟩,
       ⟨chars "icon", some (chars "/a.png")⟩] = chars "/b.png" :=
  ⟨fun doc => scanQueries_eq_specScan iconQueries doc, by decide, by decide⟩

/-- C10: within one selector pass a match carrying an `href` overwrites the
accumulated candidate even when the href trims to empty, a match without
`href` leaves it unchanged; hence a pass whose last href-bearing match is
blank yields the empty string and scanning falls through to the next
selector even though an earlier match of the pass had a non-empty href. -/
theorem c10_blank_href_overwrites :
    (∀ (q hrefVal : List Char) (rest : List LinkElement) (acc : List Char),
        scanPass q (⟨q, some hrefVal⟩ :: rest) acc = scanPass q rest (trimSpace hrefVal)) ∧
    (∀ (q : List Char) (rest : List LinkElement) (acc : List Char),
        scanPass q (⟨q, none⟩ :: rest) acc = scanPass q rest acc) ∧
    scanPass (chars "shortcut icon")
      [⟨chars "shortcut icon", some (chars "/x.png")⟩,
       ⟨chars "shortcut icon", some (chars "   ")⟩] [] = [] ∧
    findIconURLFromHTMLDocument
      [⟨chars "shortcut icon", some (chars "/x.png")⟩,
       ⟨chars "shortcut icon", some (chars "   ")⟩,
       ⟨chars "icon", some (chars "/y.png")⟩] = chars "/y.png" :=
  ⟨fun q hrefVal rest acc => by simp [scanPass],
   fun q rest acc => by simp [scanPass],
   by decide, by decide⟩

/-- C3: a data URL whose remainder after `data:` has no comma fails with the
no-comma error; one whose media type does not start with `image/` fails with
the invalid-media-type error; one whose encoding token is neither `base64`
nor empty never yields an icon and, when the media type is fine, fails with
the unsupported-encoding error. -/
theorem c3_malformed_data_url_errors :
    (∀ rest : List Char, ',' ∉ rest →
        parseImageDataURL (chars "data:" ++ rest) = .error (.noComma rest)) ∧
    (∀ seg data : List Char, ',' ∉ seg →
        ¬ (chars "image/").isPrefixOf (splitMediaTypeEncoding seg).1 →
        parseImageDataURL (chars "data:" ++ (seg ++ ',' :: data)) =
          .error (.invalidMediaType (splitMediaTypeEncoding seg).1)) ∧
    (∀ seg data : List Char, ',' ∉ seg →
        (splitMediaTypeEncoding seg).2 ≠ chars "base64" →
        (splitMediaTypeEncoding seg).2 ≠ [] →
        (∀ icon : Icon, parseImageDataURL (chars "data:" ++ (seg ++ ',' :: data)) ≠ .ok icon) ∧
        ((chars "image/").isPrefixOf (splitMediaTypeEncoding seg).1 →
          parseImageDataURL (chars "data:" ++ (seg ++ ',' :: data)) =
            .error (.unsupportedEncoding (seg ++ ',' :: data)))) := by
  refine ⟨fun rest h => ?_, fun seg data h hmt => ?_, fun seg data h henc1 henc2 => ⟨?_, ?_⟩⟩
  · rw [parseImageDataURL_data_append, parseDataURLBody, strIndex_of_not_mem ',' rest h]
  · rw [parseImageDataURL_data_append, parseDataURLBody_append seg data h]
    simp [hmt]
  · intro icon
    rw [parseImageDataURL_data_append, parseDataURLBody_append seg data h]
    by_cases hmt : (chars "image/").isPrefixOf (splitMediaTypeEncoding seg).1
    · simp [hmt, decodeBlob, henc1, henc2]
    · simp [hmt]
  · intro hmt
    rw [parseImageDataURL_data_append, parseDataURLBody_append seg data h]
    simp [hmt, decodeBlob, henc1, henc2]

/-- C3 witness: the three failure cases at concrete inputs
`data:image/png`, `data:text/plain,x` and `data:image/png;gzip,abc`. -/
theorem c3_malformed_data_url_errors_witness :
    parseImageDataURL (chars "data:" ++ chars "image/png") =
      .error (.noComma (chars "image/png")) ∧
    parseImageDataURL (chars "data:" ++ (chars "text/plain" ++ ',' :: chars "x")) =
      .error (.invalidMediaType (chars "text/plain")) ∧
    parseImageDataURL (chars "data:" ++ (chars "image/png;gzip" ++ ',' :: chars "abc")) =
      .error (.unsupportedEncoding (chars "image/png;gzip" ++ ',' :: chars "abc")) :=
  ⟨c3_malformed_data_url_errors.1 (chars "image/png") (by decide),
   by
    have h := c3_malformed_data_url_errors.2.1 (chars "text/plain") (chars "x")
      (by decide) (by decide)
    rw [h]; decide,
   by
    have h := (c3_malformed_data_url_errors.2.2 (chars "image/png;gzip") (chars "abc")
      (by decide) (by decide) (by decide)).2 (by decide)
    rw [h]⟩

/-- C4: with an empty encoding token the payload is decoded by
percent-unescaping (never base64), failing when the unescape is invalid;
with the `base64` token it is decoded by standard base64, failing on invalid
base64. -/
theorem c4_encoding_dispatch :
    (∀ seg data : List Char, ',' ∉ seg →
        (chars "image/").isPrefixOf (splitMediaTypeEncoding seg).1 →
        (splitMediaTypeEncoding seg).2 = [] →
        parseImageDataURL (chars "data:" ++ (seg ++ ',' :: data)) =
          match queryUnescape data with
          | none => .error (.invalidPercentEncoding (seg ++ ',' :: data))
          | some decoded =>
            if decoded.map Char.toNat = [] then .error (.emptyData (seg ++ ',' :: data))
            else .ok ⟨hashFromBytes (decoded.map Char.toNat), (splitMediaTypeEncoding seg).1,
                decoded.map Char.toNat⟩) ∧
    (∀ seg data : List Char, ',' ∉ seg →
        (chars "image/").isPrefixOf (splitMediaTypeEncoding seg).1 →
        (splitMediaTypeEncoding seg).2 = chars "base64" →
        parseImageDataURL (chars "data:" ++ (seg ++ ',' :: data)) =
          match base64Decode data with
          | none => .error (.invalidBase64 (seg ++ ',' :: data))
          | some blob =>
            if blob = [] then .error (.emptyData (seg ++ ',' :: data))
            else .ok ⟨hashFromBytes blob, (splitMediaTypeEncoding seg).1, blob⟩) := by
  constructor
  · intro seg data h hmt henc
    rw [parseImageDataURL_data_append, parseDataURLBody_append seg data h]
    rw [if_neg (by simp [hmt])]
    rw [decodeBlob, henc]
    rw [if_neg (by decide)]
    rw [if_pos rfl]
    cases hq : queryUnescape data with
    | none => rfl
    | some decoded => by_cases hz : decoded.map Char.toNat = [] <;> simp [hz]
  · intro seg data h hmt henc
    rw [parseImageDataURL_data_append, parseDataURLBody_append seg data h]
    rw [if_neg (by simp [hmt])]
    rw [decodeBlob, henc]
    rw [if_pos rfl]
    cases hq : base64Decode data with
    | none => rfl
    | some blob => by_cases hz : blob = [] <;> simp [hz]

/-- C4 witness: `data:image/png,%41A` percent-decodes to the two bytes `AA`;
`data:image/png,%GG` fails the unescape; `data:image/png;base64,!!!` fails
the base64 decode. -/
theorem c4_encoding_dispatch_witness :
    parseImageDataURL (chars "data:" ++ (chars "image/png" ++ ',' :: chars "%41A")) =
      .ok ⟨hashFromBytes [65, 65], chars "image/png", [65, 65]⟩ ∧
    parseImageDataURL (chars "data:" ++ (chars "image/png" ++ ',' :: chars "%GG")) =
      .error (.invalidPercentEncoding (chars "image/png" ++ ',' :: chars "%GG")) ∧
    parseImageDataURL (chars "data:" ++ (chars "image/png;base64" ++ ',' :: chars "!!!")) =
      .error (.invalidBase64 (chars "image/png;base64" ++ ',' :: chars "!!!")) :=
  ⟨by
    rw [c4_encoding_dispatch.1 (chars "image/png") (chars "%41A")
      (by decide) (by decide) (by decide)]
    decide,
   by
    rw [c4_encoding_dispatch.1 (chars "image/png") (chars "%GG")
      (by decide) (by decide) (by decide)]
    decide,
   by
    rw [c4_encoding_dispatch.2 (chars "image/png;base64") (chars "!!!")
      (by decide) (by decide) (by decide)]
    decide⟩

/-- C5 counterexample: on the segment `;base64` (first semicolon at index 0)
the code keeps the whole segment as media type with an empty encoding token,
not the claimed split into empty media type and `base64`; observably,
`data:;base64,Zg==` fails with media type `;base64`, not ` `` `. -/
theorem c5_counterexample :
    splitMediaTypeEncoding (chars ";base64") = (chars ";base64", []) ∧
    specSplitMediaTypeEncoding (chars ";base64") = ([], chars "base64") ∧
    splitMediaTypeEncoding (chars ";base64") ≠ specSplitMediaTypeEncoding (chars ";base64") ∧
    parseImageDataURL (chars "data:;base64,Zg==") =
      .error (.invalidMediaType (chars ";base64")) := by decide

/-- C5 amended: the split behaves as claimed whenever the segment's first
semicolon is not at index 0 — media type before the first semicolon, encoding
token between it and the comma, the whole segment as media type when there is
no semicolon — but a segment whose first semicolon is at index 0 is treated
as if it had none: the whole segment becomes the media type and the encoding
token is empty. -/
theorem c5_split_amended :
    (∀ seg : List Char, strIndex ';' seg ≠ some 0 →
        splitMediaTypeEncoding seg = specSplitMediaTypeEncoding seg) ∧
    (∀ seg : List Char, strIndex ';' seg = some 0 →
        splitMediaTypeEncoding seg = (seg, [])) := by
  constructor
  · intro seg h
    rw [splitMediaTypeEncoding, specSplitMediaTypeEncoding]
    cases hs : strIndex ';' seg with
    | none => rfl
    | some semi =>
      have hp : 0 < semi := by
        rcases Nat.eq_zero_or_pos semi with hz | hp
        · subst hz; exact absurd hs h
        · exact hp
      simp [hp]
  · intro seg h
    rw [splitMediaTypeEncoding, h]
    simp

/-- C5 witness: on `image/png;base64` (semicolon at a positive index) the
code's split agrees with the claimed split, and on `;x` (semicolon at index
0) the whole segment is kept as the media type. -/
theorem c5_split_amended_witness :
    splitMediaTypeEncoding (chars "image/png;base64") =
      specSplitMediaTypeEncoding (chars "image/png;base64") ∧
    splitMediaTypeEncoding (chars ";x") = (chars ";x", []) :=
  ⟨c5_split_amended.1 (chars "image/png;base64") (by decide),
   c5_split_amended.2 (chars ";x") (by decide)⟩

/-- C9 counterexample: `data:image/png;base64,AB==` is accepted (Go's
non-strict standard decoder masks the non-zero trailing bits of the final
quantum) with payload `[0]`, but re-encoding `[0]` yields `AA==`, not
`AB==`. -/
theorem c9_counterexample :
    parseImageDataURL (chars "data:image/png;base64,AB==") =
      .ok ⟨hashFromBytes [0], chars "image/png", [0]⟩ ∧
    base64Encode [0] = chars "AA==" ∧
    base64Encode [0] ≠ chars "AB==" := by decide

/-- C9 as amended: the decode/encode round trip holds exactly on canonical
encodings — for every non-empty byte sequence `p`,
`data:image/png;base64,<encode p>` is accepted with payload `p`, so
re-encoding the payload reproduces the base64 text whenever that text is the
standard encoding of its payload (while an accepted non-canonical text such
as `AB==` re-encodes differently). -/
theorem c9_canonical_roundtrip (p : List Nat) (hne : p ≠ []) (hb : ∀ b ∈ p, b < 256) :
    parseImageDataURL (chars "data:" ++ (chars "image/png;base64" ++ ',' :: base64Encode p)) =
      .ok ⟨hashFromBytes p, chars "image/png", p⟩ := by
  rw [parseImageDataURL_data_append,
    parseDataURLBody_append (chars "image/png;base64") (base64Encode p) (by decide)]
  have hsplit : splitMediaTypeEncoding (chars "image/png;base64") =
      (chars "image/png", chars "base64") := by decide
  rw [hsplit]
  rw [if_neg (by decide)]
  rw [decodeBlob]
  rw [if_pos rfl]
  rw [base64_decode_encode p hb]
  simp [hne]

/-- C9 witness: the amended round trip at the concrete payload `[137, 80]`
(whose canonical encoding is `iVA=`). -/
theorem c9_canonical_roundtrip_witness :
    parseImageDataURL
        (chars "data:" ++ (chars "image/png;base64" ++ ',' :: base64Encode [137, 80])) =
      .ok ⟨hashFromBytes [137, 80], chars "image/png", [137, 80]⟩ :=
  c9_canonical_roundtrip [137, 80] (by decide) (by decide)

theorem parseDataURLBody_ok_content (v : List Char) (icon : Icon)
    (h : parseDataURLBody v = .ok icon) : icon.content ≠ [] := by
  rw [parseDataURLBody] at h
  split at h
  · exact absurd h (by simp)
  · split at h
    · exact absurd h (by simp)
    · split at h
      · exact absurd h (by simp)
      · split at h
        · exact absurd h (by simp)
        · rename_i hblob
          injection h with h2
          subst h2
          exact hblob

theorem parseImageDataURL_ok_content (value : List Char) (icon : Icon)
    (h : parseImageDataURL value = .ok icon) : icon.content ≠ [] := by
  rw [parseImageDataURL] at h
  split at h
  · exact parseDataURLBody_ok_content _ _ h
  · exact absurd h (by simp)

theorem downloadIcon_ok_content (iconURL : List Char) (resp : Except Unit IconResponse)
    (icon : Icon) (h : downloadIcon iconURL resp = .ok icon) : icon.content ≠ [] := by
  rw [downloadIcon.eq_def] at h
  split at h
  · exact absurd h (by simp)
  · split at h
    · exact absurd h (by simp)
    · split at h
      · exact absurd h (by simp)
      · split at h
        · exact absurd h (by simp)
        · rename_i hbody
          injection h with h2
          subst h2
          exact hbody

theorem FindIcon_ok_content (w f : List Char) (page : Except Unit PageResponse)
    (net : List Char → Except Unit IconResponse) (icon : Icon)
    (h : FindIcon w f page net = .ok icon) : icon.content ≠ [] := by
  rw [FindIcon] at h
  split at h
  · exact absurd h (by simp)
  · split at h
    · exact parseImageDataURL_ok_content _ _ h
    · split at h
      · exact absurd h (by simp)
      · exact downloadIcon_ok_content _ _ _ h

/-- C1: a successfully returned `Icon` never has empty `Content` — the
data-URL decode path, the download path, and `FindIcon` as a whole all
reject a zero-length byte sequence instead of building an icon from it. -/
theorem c1_icon_content_nonempty :
    (∀ (value : List Char) (icon : Icon),
        parseImageDataURL value = .ok icon → icon.content ≠ []) ∧
    (∀ (iconURL : List Char) (resp : Except Unit IconResponse) (icon : Icon),
        downloadIcon iconURL resp = .ok icon → icon.content ≠ []) ∧
    (∀ (w f : List Char) (page : Except Unit PageResponse)
        (net : List Char → Except Unit IconResponse) (icon : Icon),
        FindIcon w f page net = .ok icon → icon.content ≠ []) :=
  ⟨parseImageDataURL_ok_content, downloadIcon_ok_content, FindIcon_ok_content⟩

/-- C1 witness: the invariant applied to the accepted input
`data:image/gif;base64,AA==`, whose icon has content `[0]`. -/
theorem c1_icon_content_nonempty_witness :
    parseImageDataURL (chars "data:image/gif;base64,AA==") =
      .ok ⟨hashFromBytes [0], chars "image/gif", [0]⟩ ∧
    (Icon.mk (hashFromBytes [0]) (chars "image/gif") [0]).content ≠ [] :=
  ⟨by decide,
   c1_icon_content_nonempty.1 (chars "data:image/gif;base64,AA==")
     ⟨hashFromBytes [0], chars "image/gif", [0]⟩ (by decide)⟩

/-- C6: an icon candidate that is empty after trimming falls back to the
site root joined with `favicon.ico`; a non-empty trimmed candidate is
resolved to an absolute URL against the site URL; concretely, the empty and
whitespace-only candidates against `https://example.com/blog/` give
`https://example.com/favicon.ico` and the relative candidate
`icons/fav.png` gives `https://example.com/blog/icons/fav.png`. -/
theorem c6_generate_icon_url :
    (∀ w c : List Char, trimSpace c = [] →
        generateIconURL w c =
          match joinBaseURLAndPath (rootURL w) (chars "favicon.ico") with
          | .ok u => .ok u
          | .error _ => .error .joinURLError) ∧
    (∀ w c : List Char, trimSpace c ≠ [] →
        generateIconURL w c =
          match absoluteURL w (trimSpace c) with
          | .ok u => .ok u
          | .error _ => .error .absoluteURLError) ∧
    generateIconURL (chars "https://example.com/blog/") [] =
      .ok (chars "https://example.com/favicon.ico") ∧
    generateIconURL (chars "https://example.com/blog/") (chars "   ") =
      .ok (chars "https://example.com/favicon.ico") ∧
    generateIconURL (chars "https://example.com/blog/") (chars "icons/fav.png") =
      .ok (chars "https://example.com/blog/icons/fav.png") := by
  refine ⟨fun w c h => ?_, fun w c h => ?_, by decide, by decide, by decide⟩
  · rw [generateIconURL]
    simp [h]
  · rw [generateIconURL]
    simp [h]

/-- C6 witness: the favicon.ico fallback branch taken at a whitespace-only
candidate. -/
theorem c6_generate_icon_url_witness :
    generateIconURL (chars "http://host") (chars " ") =
      match joinBaseURLAndPath (rootURL (chars "http://host")) (chars "favicon.ico") with
      | .ok u => .ok u
      | .error _ => .error .joinURLError :=
  c6_generate_icon_url.1 (chars "http://host") (chars " ") (by decide)

/-- C7: the download fails exactly on transport error, server-failure (5xx)
status, body read error, or empty body — the server-failure error carries
the status code and the empty-content error carries the icon URL — and
otherwise returns the icon built from the digest of the body, the response's
content type, and the body. -/
theorem c7_download_error_conditions :
    (∀ u : List Char, downloadIcon u (.error ()) = .error .iconTransport) ∧
    (∀ (u : List Char) (r : IconResponse), hasServerFailure r.statusCode = true →
        downloadIcon u (.ok r) = .error (.iconServerFailure r.statusCode)) ∧
    (∀ (u : List Char) (r : IconResponse), hasServerFailure r.statusCode = false →
        r.body = .error () → downloadIcon u (.ok r) = .error .iconRead) ∧
    (∀ (u : List Char) (r : IconResponse), hasServerFailure r.statusCode = false →
        r.body = .ok [] → downloadIcon u (.ok r) = .error (.iconEmpty u)) ∧
    (∀ (u : List Char) (r : IconResponse) (body : List Nat),
        hasServerFailure r.statusCode = false → r.body = .ok body → body ≠ [] →
        downloadIcon u (.ok r) = .ok ⟨hashFromBytes body, r.contentType, body⟩) ∧
    (∀ (u : List Char) (resp : Except Unit IconResponse) (icon : Icon),
        downloadIcon u resp = .ok icon →
        ∃ (r : IconResponse) (body : List Nat),
          resp = .ok r ∧ hasServerFailure r.statusCode = false ∧
          r.body = .ok body ∧ body ≠ [] ∧
          icon = ⟨hashFromBytes body, r.contentType, body⟩) := by
  refine ⟨fun u => rfl, fun u r h => ?_, fun u r h hb => ?_, fun u r h hb => ?_,
    fun u r body h hb hne => ?_, fun u resp icon h => ?_⟩
  · rw [downloadIcon.eq_def]
    simp [h]
  · rw [downloadIcon.eq_def]
    simp [h, hb]
  · rw [downloadIcon.eq_def]
    simp [h, hb]
  · rw [downloadIcon.eq_def]
    simp [h, hb, hne]
  · rw [downloadIcon.eq_def] at h
    split at h
    · exact absurd h (by simp)
    · rename_i r
      split at h
      · exact absurd h (by simp)
      · rename_i hsf
        split at h
        · exact absurd h (by simp)
        · rename_i body hbody
          split at h
          · exact absurd h (by simp)
          · rename_i hne
            injection h with h2
            exact ⟨r, body, rfl, by simpa using hsf, hbody, hne, h2.symm⟩

/-- C7 witness: a 503 response yields the server-failure error carrying
status 503, and a 200 response with body `[1]` and content type `image/png`
yields the icon built from it. -/
theorem c7_download_error_conditions_witness :
    downloadIcon (chars "http://e/i.png")
        (.ok ⟨503, chars "image/png", .ok [1]⟩) = .error (.iconServerFailure 503) ∧
    downloadIcon (chars "http://e/i.png")
        (.ok ⟨200, chars "image/png", .ok [1]⟩) =
      .ok ⟨hashFromBytes [1], chars "image/png", [1]⟩ :=
  ⟨c7_download_error_conditions.2.1 (chars "http://e/i.png")
     ⟨503, chars "image/png", .ok [1]⟩ (by decide),
   c7_download_error_conditions.2.2.2.2.1 (chars "http://e/i.png")
     ⟨200, chars "image/png", .ok [1]⟩ [1] (by decide) rfl (by decide)⟩

/-- C8: whenever the candidate icon URL — the supplied one, or the one the
page scan produces when none is supplied — starts with `data:`, `FindIcon`
returns exactly `parseImageDataURL` of that candidate, and the result is
independent of the website URL and of the icon-download network oracle (no
URL resolution or download takes place). -/
theorem c8_data_url_bypass :
    (∀ (w w2 f : List Char) (page : Except Unit PageResponse)
        (net net2 : List Char → Except Unit IconResponse),
        f ≠ [] → (chars "data:").isPrefixOf f →
        FindIcon w f page net = parseImageDataURL f ∧
        FindIcon w f page net = FindIcon w2 f page net2) ∧
    (∀ (w w2 : List Char) (page : Except Unit PageResponse)
        (net net2 : List Char → Except Unit IconResponse) (cand : List Char),
        fetchHTMLDocumentAndFindIconURL page = .ok cand →
        (chars "data:").isPrefixOf cand →
        FindIcon w [] page net = parseImageDataURL cand ∧
        FindIcon w [] page net = FindIcon w2 [] page net2) := by
  constructor
  · intro w w2 f page net net2 hne hdata
    have hall : ∀ (w3 : List Char) (n3 : List Char → Except Unit IconResponse),
        FindIcon w3 f page n3 = parseImageDataURL f := by
      intro w3 n3
      rw [FindIcon.eq_def, if_neg hne]
      simp [hdata]
    exact ⟨hall w net, (hall w net).trans (hall w2 net2).symm⟩
  · intro w w2 page net net2 cand hfetch hdata
    have hall : ∀ (w3 : List Char) (n3 : List Char → Except Unit IconResponse),
        FindIcon w3 [] page n3 = parseImageDataURL cand := by
      intro w3 n3
      rw [FindIcon.eq_def, if_pos rfl, hfetch]
      simp [hdata]
    exact ⟨hall w net, (hall w net).trans (hall w2 net2).symm⟩

/-- C8 witness: with a supplied `data:` candidate, `FindIcon` equals the
data-URL decode even when every network oracle fails. -/
theorem c8_data_url_bypass_witness :
    FindIcon (chars "http://a") (chars "data:image/gif;base64,AA==")
        (.error ()) (fun _ => .error ()) =
      parseImageDataURL (chars "data:image/gif;base64,AA==") :=
  (c8_data_url_bypass.1 (chars "http://a") (chars "b")
    (chars "data:image/gif;base64,AA==") (.error ())
    (fun _ => .error ()) (fun _ => .error ()) (by decide) (by decide)).1
